import Mathlib

set_option linter.unnecessarySeqFocus false

/-
  Verification of the CRM deal consolidation frontend
  (src/frontend/src/App.jsx and the earlier variant src/unnamed/part_000).

  JavaScript strings are modelled by Lean `String` (with `String.data` used
  where JS iterates characters), JS arrays by `List`, JS objects reaching the
  view layer by association lists of `JSValue`, and absent/null JSON fields by
  `Option`.  Host built-ins that the code calls but does not define
  (`Number(string)`, `String(number)`, `Number.prototype.toLocaleString`) are
  abstracted as fields of a `JSHost` parameter, so theorems hold for every
  behaviour of those built-ins.
-/

/-- A JavaScript runtime value as it can reach the small helper functions of
the frontend: `null`, `undefined`, the number `NaN`, a finite number (modelled
as a rational), a string, or a boolean. -/
inductive JSValue where
  | vnull
  | vundef
  | vnan
  | vnum (q : ℚ)
  | vstr (s : String)
  | vbool (b : Bool)
deriving DecidableEq

/-- Host built-ins used by `formatMoney` and the row renderer, abstracted:
`numParse s` models `Number(s)` on a string (`none` = NaN); `numToString`
models `String(n)` for a finite number; `localeMaxTwoFrac n` models
`n.toLocaleString(undefined, { maximumFractionDigits: 2 })`, i.e. the
locale rendering with at most two fraction digits. -/
structure JSHost where
  numParse : String → Option ℚ
  numToString : ℚ → String
  localeMaxTwoFrac : ℚ → String

/-- A JSON object as consumed by the view layer: field name to value. -/
abbrev JSObject := List (String × JSValue)

/-- Property access `o[k]`: the first binding wins, a missing key yields
`undefined`. -/
def getField (r : JSObject) (k : String) : JSValue :=
  match r.find? (fun p => p.1 == k) with
  | some p => p.2
  | none => JSValue.vundef

/-- JavaScript truthiness of a `JSValue`. -/
def truthy : JSValue → Bool
  | JSValue.vnull => false
  | JSValue.vundef => false
  | JSValue.vnan => false
  | JSValue.vnum q => q ≠ 0
  | JSValue.vstr s => s ≠ ""
  | JSValue.vbool b => b

/-- `Number(x)` coercion; `none` is NaN.  `Number(null) = 0`,
`Number(undefined) = NaN`, booleans map to 1/0, strings go through the
host parse. -/
def toNumber (h : JSHost) : JSValue → Option ℚ
  | JSValue.vnull => some 0
  | JSValue.vundef => none
  | JSValue.vnan => none
  | JSValue.vnum q => some q
  | JSValue.vstr s => h.numParse s
  | JSValue.vbool b => some (if b then 1 else 0)

/-- `String(x)` coercion. -/
def jsToString (h : JSHost) : JSValue → String
  | JSValue.vnull => "null"
  | JSValue.vundef => "undefined"
  | JSValue.vnan => "NaN"
  | JSValue.vnum q => h.numToString q
  | JSValue.vstr s => s
  | JSValue.vbool b => if b then "true" else "false"

/-- A `File` object from a selection: only its name and raw bytes matter to
the code under verification. -/
structure JSFile where
  name : String
  bytes : List Nat
deriving DecidableEq

/-- `String.prototype.split` with a one-character separator, on the character
list of the string: `"".split(".") = [""]`, `"a.b".split(".") = ["a","b"]`. -/
def splitOnChar (c : Char) : List Char → List (List Char)
  | [] => [[]]
  | a :: rest =>
    let r := splitOnChar c rest
    if a = c then [] :: r
    else
      match r with
      | [] => [[a]]
      | h :: t => (a :: h) :: t

/-- App.jsx line 10: the allowed upload extensions. -/
def ALLOWED_EXTENSIONS : List String :=
  ["pdf", "xlsx", "xls", "csv", "jpg", "jpeg", "png", "zip"]

/-- App.jsx lines 12–21: the unified schema column order of the deals table. -/
def SCHEMA_COLUMNS : List String :=
  ["deal_id", "client_name", "deal_value", "stage", "closing_probability",
   "owner", "expected_close_date", "source_file"]

/-- App.jsx `getExt`: split the filename on ".", and when there is more than
one part return the last part lowercased, otherwise `""`. -/
def getExt (filename : String) : String :=
  let parts := splitOnChar '.' filename.data
  if parts.length > 1 then String.mk ((parts.getLastD []).map Char.toLower)
  else ""

/-- App.jsx `badgeClass`: CSS class for a processing-status badge.  The
argument is `none` for a null/undefined status (JS `!status` also catches the
empty string). -/
def badgeClass (status : Option String) : String :=
  match status with
  | none => "badge"
  | some st =>
    if st = "" then "badge"
    else if st = "parsed" then "badge parsed"
    else if st = "ai_extracted" then "badge ai"
    else if st = "expanded" then "badge expanded"
    else if st = "failed" then "badge failed"
    else if st = "rejected" then "badge rejected"
    else "badge"

/-- App.jsx `formatMoney`: `""` for null/undefined/empty-string, the `String`
form for values whose `Number` conversion is NaN, and otherwise the locale
rendering with at most two fraction digits. -/
def formatMoney (h : JSHost) (x : JSValue) : String :=
  if x = JSValue.vnull ∨ x = JSValue.vundef ∨ x = JSValue.vstr "" then ""
  else
    match toNumber h x with
    | none => jsToString h x
    | some n => h.localeMaxTwoFrac n

/-- App.jsx `validateFiles`: collect, in order, the names of selected files
whose extension is not allowed. -/
def validateFiles : List JSFile → List String
  | [] => []
  | f :: rest =>
    if ALLOWED_EXTENSIONS.contains (getExt f.name) then validateFiles rest
    else f.name :: validateFiles rest

/-- App.jsx `acceptedHint`: the allowed extensions rendered as ".pdf, .xlsx, …". -/
def acceptedHint : String :=
  ", ".intercalate (ALLOWED_EXTENSIONS.map (fun e => "." ++ e))

/-- The error message `onChooseFiles` reports for a bad selection. -/
def unsupportedMsg (bad : List String) : String :=
  "Unsupported file type for: " ++ ", ".intercalate bad ++ ". Allowed: " ++ acceptedHint

/-- App.jsx line 9: the backend base URL (the Vite default, when the
environment does not override it). -/
def API_BASE : String := "http://127.0.0.1:8000"

/-- The React state of `App` that the verified handlers read and write.
Loading flags that no claim mentions (`loadingBatches`, `loadingKpis`,
`dragOver`) are omitted. -/
structure AppState where
  selectedFiles : List JSFile
  error : String
  uploading : Bool
  progress : Nat
  batchId : Option String
  filesResult : List JSObject
  deals : List JSObject
  uploadTimestamp : Option String
  recentBatches : List JSObject
  kpis : Option JSObject

/-- The initial state of `App` (the `useState` initialisers). -/
def emptyState : AppState :=
  { selectedFiles := [], error := "", uploading := false, progress := 0,
    batchId := none, filesResult := [], deals := [], uploadTimestamp := none,
    recentBatches := [], kpis := none }

/-- App.jsx `onChooseFiles`: clear the error and the previous batch state,
then either reject the whole selection (empty selected list plus an
unsupported-file error) or accept all of it. -/
def onChooseFiles (s : AppState) (files : List JSFile) : AppState :=
  let s1 := { s with error := "", batchId := none, filesResult := [],
                     deals := [], uploadTimestamp := none, kpis := none }
  let bad := validateFiles files
  if bad.length ≠ 0 then
    { s1 with selectedFiles := [], error := unsupportedMsg bad }
  else
    { s1 with selectedFiles := files }

/-- The state clearing `upload` performs before issuing the request
(App.jsx lines 178–185). -/
def clearForUpload (s : AppState) : AppState :=
  { s with error := "", uploading := true, progress := 0, batchId := none,
           filesResult := [], deals := [], uploadTimestamp := none,
           kpis := none }

/-- The `FormData` body of the upload request: one `"files"` entry per
selected file, appended in selection order (App.jsx lines 187–188). -/
def buildFormData (files : List JSFile) : List (String × JSFile) :=
  files.map (fun f => ("files", f))

/-- What `upload` does before the network round-trip: either no request at
all (empty selection), or a request carrying the given form-data entries. -/
inductive UploadAction where
  | noRequest (s : AppState)
  | request (s : AppState) (entries : List (String × JSFile))

/-- Whether an `UploadAction` actually issues an HTTP request. -/
def isRequest : UploadAction → Bool
  | UploadAction.noRequest _ => false
  | UploadAction.request _ _ => true

/-- App.jsx `upload`, synchronous part: refuse an empty selection, otherwise
clear the batch state and send the form data. -/
def uploadStart (s : AppState) : UploadAction :=
  if s.selectedFiles.length = 0 then
    UploadAction.noRequest { s with error := "Please choose at least one file." }
  else
    UploadAction.request (clearForUpload s) (buildFormData s.selectedFiles)

/-- The JSON body of an upload response, as the success handler reads it;
`Option` models null/undefined/missing fields. -/
structure UploadData where
  batch_id : Option String
  upload_timestamp : Option String
  files : Option (List JSObject)
  deals_preview : Option (List JSObject)
  detail : Option String

/-- JS `v || null` on an optional string: the empty string is falsy. -/
def orNullStr : Option String → Option String
  | some s => if s = "" then none else some s
  | none => none

/-- JS `d || fallback` on an optional string. -/
def detailOr : Option String → String → String
  | some d, m => if d = "" then m else d
  | none, m => m

/-- The generic failure message of the upload handler. -/
def uploadFailMsg (status : Nat) : String :=
  "Upload failed (status " ++ toString status ++ ")."

/-- App.jsx `fetchKpis`: a falsy id is ignored, otherwise the KPI response for
that id (given by the environment `env`) is stored. -/
def fetchKpisStep (s : AppState) (id : Option String) (env : String → JSObject) :
    AppState :=
  match id with
  | none => s
  | some i => if i = "" then s else { s with kpis := some (env i) }

/-- App.jsx `fetchBatches`: store `data.batches || []` from the batch-list
response (`none` models a body without a `batches` field). -/
def fetchBatchesStep (s : AppState) (batches : Option (List JSObject)) : AppState :=
  { s with recentBatches := batches.getD [] }

/-- App.jsx `upload`, `xhr.onload` handler: on a parsable 2xx body set the
batch state from the response's `batch_id`, `upload_timestamp`, `files` and
`deals_preview`, then fetch KPIs and the batch list; otherwise set only the
error message.  `body = none` models a `JSON.parse` failure. -/
def uploadOnload (s : AppState) (status : Nat) (body : Option UploadData)
    (kpisEnv : String → JSObject) (batchesEnv : Option (List JSObject)) :
    AppState :=
  let s1 := { s with uploading := false, progress := 100 }
  match body with
  | none => { s1 with error := uploadFailMsg status }
  | some data =>
    if 200 ≤ status ∧ status < 300 then
      let s2 := { s1 with batchId := data.batch_id,
                          uploadTimestamp := orNullStr data.upload_timestamp,
                          filesResult := data.files.getD [],
                          deals := data.deals_preview.getD [] }
      fetchBatchesStep (fetchKpisStep s2 data.batch_id kpisEnv) batchesEnv
    else
      { s1 with error := detailOr data.detail (uploadFailMsg status) }

/-- The URL of the full-record retrieval for a batch. -/
def recordsUrl (id : String) : String :=
  API_BASE ++ "/records?batch_id=" ++ id

/-- App.jsx `refreshAllRecords`: a no-op without a (truthy) batch id;
otherwise fetch the records endpoint for the current batch id, replace the
deals with `data.records || []`, and refetch KPIs.  Returns the requested URL
(if any) together with the new state. -/
def refreshAllRecords (s : AppState) (recordsEnv : String → Option (List JSObject))
    (kpisEnv : String → JSObject) : Option String × AppState :=
  match s.batchId with
  | none => (none, s)
  | some id =>
    if id = "" then (none, s)
    else
      let s1 := { s with deals := (recordsEnv id).getD [] }
      (some (recordsUrl id), fetchKpisStep s1 (some id) kpisEnv)

/-- The grouping key of `stageDist`: `d.stage || "Unknown"` — any falsy stage
(null, undefined, empty string, 0, NaN, false) is replaced by `"Unknown"`. -/
def stageKeyOf (d : JSObject) : JSValue :=
  let v := getField d "stage"
  if truthy v then v else JSValue.vstr "Unknown"

/-- `map.set(stage, (map.get(stage) || 0) + 1)` on an insertion-ordered map:
increment the entry for the key in place, or append a fresh entry. -/
def bumpKey (m : List (JSValue × Nat)) (k : JSValue) : List (JSValue × Nat) :=
  match m with
  | [] => [(k, 1)]
  | (k0, c) :: rest =>
    if k0 = k then (k0, c + 1) :: rest else (k0, c) :: bumpKey rest k

/-- App.jsx `stageDist`: count the deals per stage key, with falsy stages
bucketed under `"Unknown"`, in first-seen order. -/
def stageDist (deals : List JSObject) : List (JSValue × Nat) :=
  deals.foldl (fun m d => bumpKey m (stageKeyOf d)) []

/-- The total of all bucket counts of a stage distribution. -/
def sumCounts : List (JSValue × Nat) → Nat
  | [] => 0
  | p :: rest => p.2 + sumCounts rest

/-- The count recorded for one key in a stage distribution (summing over
duplicate entries, though `bumpKey` never creates any). -/
def countKey : List (JSValue × Nat) → JSValue → Nat
  | [], _ => 0
  | p :: rest, k => (if p.1 = k then p.2 else 0) + countKey rest k

/-- How many deals of the list group under the given key. -/
def countMatching (k : JSValue) : List JSObject → Nat
  | [] => 0
  | d :: rest => (if stageKeyOf d = k then 1 else 0) + countMatching k rest

/-- The cell rendered for one schema column of one deal row (App.jsx
line 573): `deal_value` goes through `formatMoney`, every other column is
`r?.[k] ?? ""`. -/
def renderCell (h : JSHost) (r : JSObject) (k : String) : JSValue :=
  if k = "deal_value" then JSValue.vstr (formatMoney h (getField r k))
  else
    match getField r k with
    | JSValue.vnull => JSValue.vstr ""
    | JSValue.vundef => JSValue.vstr ""
    | v => v

/-- One rendered row of the consolidated-deals table: the cells for
`SCHEMA_COLUMNS`, in that order. -/
def renderRow (h : JSHost) (r : JSObject) : List JSValue :=
  SCHEMA_COLUMNS.map (renderCell h r)

/-- Modelled from the spec: the export boundary (the backend spreadsheet
renderer, which is not under src/) "consumes the full set of DealRecords for
a batch id, in the unified column order given in §3" — the seven unified
fields of §3 followed by the `source_file` provenance column. -/
def exportColumns : List String :=
  ["deal_id", "client_name", "deal_value", "stage", "closing_probability",
   "owner", "expected_close_date", "source_file"]

/-- The processing-status vocabulary named by the spec (§4.5): uploaded,
parsed, ai_extracted, expanded, failed. -/
def SPEC_STATUSES : List String :=
  ["uploaded", "parsed", "ai_extracted", "expanded", "failed"]

namespace V0

/-- src/unnamed/part_000 line 4: the allowed upload extensions of the earlier
frontend variant. -/
def ALLOWED_EXTENSIONS : List String :=
  ["pdf", "xlsx", "xls", "csv", "jpg", "jpeg", "png", "zip"]

/-- src/unnamed/part_000 `getExt`. -/
def getExt (filename : String) : String :=
  let parts := splitOnChar '.' filename.data
  if parts.length > 1 then String.mk ((parts.getLastD []).map Char.toLower)
  else ""

/-- src/unnamed/part_000 `validateFiles`. -/
def validateFiles : List JSFile → List String
  | [] => []
  | f :: rest =>
    if ALLOWED_EXTENSIONS.contains (getExt f.name) then validateFiles rest
    else f.name :: validateFiles rest

end V0

/-- A trivial concrete host, used to instantiate host-parametric theorems. -/
def hostTest : JSHost :=
  { numParse := fun _ => none, numToString := fun _ => "0",
    localeMaxTwoFrac := fun _ => "0" }

/-- A trivial concrete KPI environment. -/
def kpisEnvTest : String → JSObject := fun _ => []

/-- A concrete upload-response body. -/
def dataTest : UploadData :=
  { batch_id := some "b1", upload_timestamp := some "2024-01-01T00:00:00Z",
    files := some [], deals_preview := some [[("stage", JSValue.vstr "Open")]],
    detail := none }

/-- A concrete records environment: every batch id has one full record. -/
def recordsEnvTest : String → Option (List JSObject) :=
  fun _ => some [[("stage", JSValue.vstr "Won")], [("stage", JSValue.vnull)]]

theorem splitOnChar_not_mem (c : Char) (l : List Char) (h : c ∉ l) :
    splitOnChar c l = [l] := by
  induction l with
  | nil => rfl
  | cons a rest ih =>
    simp only [List.mem_cons, not_or] at h
    have hac : ¬ a = c := fun hac => h.1 hac.symm
    simp only [splitOnChar, if_neg hac, ih h.2]

theorem getLastD_of_ne_nil {α : Type} (l : List α) (d1 d2 : α) (h : l ≠ []) :
    l.getLastD d1 = l.getLastD d2 := by
  cases l with
  | nil => exact absurd rfl h
  | cons a t => simp only [List.getLastD_cons]

theorem splitOnChar_last_of_append (c : Char) (xs ys : List Char) (h : c ∉ ys) :
    1 < (splitOnChar c (xs ++ c :: ys)).length ∧
    (splitOnChar c (xs ++ c :: ys)).getLastD [] = ys := by
  induction xs with
  | nil =>
    have h1 : splitOnChar c (c :: ys) = [] :: splitOnChar c ys := by
      simp [splitOnChar]
    rw [List.nil_append, h1, splitOnChar_not_mem c ys h]
    refine ⟨by simp, ?_⟩
    simp [List.getLastD_cons]
  | cons x xs ih =>
    simp only [List.cons_append, splitOnChar]
    by_cases hx : x = c
    · rw [if_pos hx]
      refine ⟨by simpa using Nat.lt_succ_of_lt ih.1, ?_⟩
      simpa only [List.getLastD_cons] using ih.2
    · rw [if_neg hx]
      rcases hr : splitOnChar c (xs ++ c :: ys) with _ | ⟨h1, t⟩
      · rw [hr] at ih; simp at ih
      · rw [hr] at ih
        have ht : t ≠ [] := by
          intro h0
          rw [h0] at ih
          simp at ih
        constructor
        · simpa using ih.1
        · rw [List.getLastD_cons, getLastD_of_ne_nil t (x :: h1) h1 ht]
          simpa only [List.getLastD_cons] using ih.2

theorem getExt_last_dot (xs ys : List Char) (h : '.' ∉ ys) :
    getExt (String.mk (xs ++ '.' :: ys)) = String.mk (ys.map Char.toLower) := by
  have hs := splitOnChar_last_of_append '.' xs ys h
  show (if (splitOnChar '.' (xs ++ '.' :: ys)).length > 1 then
      String.mk (((splitOnChar '.' (xs ++ '.' :: ys)).getLastD []).map Char.toLower)
    else "") = String.mk (ys.map Char.toLower)
  rw [if_pos hs.1, hs.2]

theorem getExt_no_dot (s : String) (h : '.' ∉ s.data) : getExt s = "" := by
  show (if (splitOnChar '.' s.data).length > 1 then
      String.mk (((splitOnChar '.' s.data).getLastD []).map Char.toLower)
    else "") = ""
  rw [splitOnChar_not_mem '.' s.data h]
  simp

theorem validateFiles_eq_filter (files : List JSFile) :
    validateFiles files =
      (files.filter
        (fun f => !(ALLOWED_EXTENSIONS.contains (getExt f.name)))).map JSFile.name := by
  induction files with
  | nil => rfl
  | cons f rest ih =>
    simp only [validateFiles, List.filter_cons]
    cases hc : ALLOWED_EXTENSIONS.contains (getExt f.name) with
    | true => simp [ih]
    | false => simp [ih]

theorem chooseFiles_rejected (st : AppState) (files : List JSFile)
    (h : validateFiles files ≠ []) :
    onChooseFiles st files =
      { st with selectedFiles := [], error := unsupportedMsg (validateFiles files),
                batchId := none, filesResult := [], deals := [],
                uploadTimestamp := none, kpis := none } := by
  have hlen : (validateFiles files).length ≠ 0 :=
    fun h0 => h (List.length_eq_zero.mp h0)
  simp only [onChooseFiles, if_pos hlen]

/-- Claim C1: `validateFiles` returns exactly the names of the selected files
whose lowercased last-dot extension is not among the eight allowed ones (the
extension of a dot-free name being `""`), and a selection with a non-empty bad
list makes `onChooseFiles` report the unsupported-file error while `upload`
issues no request for that selection. -/
theorem claim1_validate_reject_early :
    ALLOWED_EXTENSIONS = ["pdf", "xlsx", "xls", "csv", "jpg", "jpeg", "png", "zip"] ∧
    (∀ files : List JSFile,
      validateFiles files =
        (files.filter
          (fun f => !(ALLOWED_EXTENSIONS.contains (getExt f.name)))).map JSFile.name) ∧
    (∀ xs ys : List Char, '.' ∉ ys →
      getExt (String.mk (xs ++ '.' :: ys)) = String.mk (ys.map Char.toLower)) ∧
    (∀ s : String, '.' ∉ s.data → getExt s = "") ∧
    (∀ st files, validateFiles files ≠ [] →
      (onChooseFiles st files).error = unsupportedMsg (validateFiles files) ∧
      isRequest (uploadStart (onChooseFiles st files)) = false) := by
  refine ⟨rfl, validateFiles_eq_filter, getExt_last_dot, getExt_no_dot, ?_⟩
  intro st files h
  rw [chooseFiles_rejected st files h]
  exact ⟨rfl, rfl⟩

/-- Witness for C1 at a concrete filename and a concrete bad selection. -/
theorem claim1_validate_reject_early_witness :
    getExt (String.mk (['a'] ++ '.' :: ['T', 'X', 'T'])) =
      String.mk (['T', 'X', 'T'].map Char.toLower) ∧
    isRequest (uploadStart (onChooseFiles emptyState [⟨"bad.txt", []⟩])) = false :=
  ⟨claim1_validate_reject_early.2.2.1 ['a'] ['T', 'X', 'T'] (by decide),
   (claim1_validate_reject_early.2.2.2.2 emptyState [⟨"bad.txt", []⟩] (by decide)).2⟩

/-- Claim C9: a selection containing any unsupported file is rejected whole —
`onChooseFiles` empties the selected list, clears the previous batch state,
and sets the unsupported-file error. -/
theorem claim9_choose_all_or_nothing (st : AppState) (files : List JSFile)
    (h : validateFiles files ≠ []) :
    (onChooseFiles st files).selectedFiles = [] ∧
    (onChooseFiles st files).batchId = none ∧
    (onChooseFiles st files).filesResult = [] ∧
    (onChooseFiles st files).deals = [] ∧
    (onChooseFiles st files).uploadTimestamp = none ∧
    (onChooseFiles st files).kpis = none ∧
    (onChooseFiles st files).error = unsupportedMsg (validateFiles files) := by
  rw [chooseFiles_rejected st files h]
  exact ⟨rfl, rfl, rfl, rfl, rfl, rfl, rfl⟩

/-- Witness for C9: a selection with one `.exe` file is fully dropped. -/
theorem claim9_choose_all_or_nothing_witness :
    (onChooseFiles emptyState [⟨"virus.exe", []⟩, ⟨"ok.pdf", []⟩]).selectedFiles = [] :=
  (claim9_choose_all_or_nothing emptyState [⟨"virus.exe", []⟩, ⟨"ok.pdf", []⟩]
    (by decide)).1

/-- Claim C7: for a non-empty accepted selection, `upload` sends a form body
whose `"files"` entries are the selected files in selection order. -/
theorem claim7_formdata_order (s : AppState) (h : s.selectedFiles ≠ []) :
    uploadStart s =
      UploadAction.request (clearForUpload s) (buildFormData s.selectedFiles) ∧
    (buildFormData s.selectedFiles).map Prod.snd = s.selectedFiles ∧
    ∀ e ∈ buildFormData s.selectedFiles, e.1 = "files" := by
  refine ⟨?_, ?_, ?_⟩
  · have hlen : ¬ s.selectedFiles.length = 0 :=
      fun h0 => h (List.length_eq_zero.mp h0)
    simp only [uploadStart, if_neg hlen]
  · simp [buildFormData, List.map_map, Function.comp]
  · intro e he
    simp only [buildFormData, List.mem_map] at he
    obtain ⟨f, _, rfl⟩ := he
    rfl

/-- Witness for C7 with a one-file selection. -/
theorem claim7_formdata_order_witness :
    (buildFormData ({ emptyState with
      selectedFiles := [⟨"a.pdf", []⟩] } : AppState).selectedFiles).map Prod.snd =
      [(⟨"a.pdf", []⟩ : JSFile)] :=
  (claim7_formdata_order { emptyState with selectedFiles := [⟨"a.pdf", []⟩] }
    (by decide)).2.1

/-- Claim C8: the two frontend variants agree on file validation — `getExt`
and `validateFiles` of src/unnamed/part_000 compute the same results as those
of src/frontend/src/App.jsx on every input. -/
theorem claim8_variants_equivalent :
    (∀ fn : String, V0.getExt fn = getExt fn) ∧
    (∀ fs : List JSFile, V0.validateFiles fs = validateFiles fs) := by
  constructor
  · intro fn; rfl
  · intro fs
    induction fs with
    | nil => rfl
    | cons f rest ih =>
      show (if V0.ALLOWED_EXTENSIONS.contains (V0.getExt f.name)
          then V0.validateFiles rest else f.name :: V0.validateFiles rest) = _
      rw [ih]
      rfl

/-- Counterexample to C2: the frontend's `badgeClass` consumes a distinct
`"rejected"` processing status — it maps it to its own badge class, different
from the default — and `"rejected"` is not in the spec's status set
{uploaded, parsed, ai_extracted, expanded, failed}. -/
theorem claim2_counterexample :
    badgeClass (some "rejected") = "badge rejected" ∧
    (badgeClass (some "rejected") == "badge") = false ∧
    SPEC_STATUSES.contains "rejected" = false :=
  ⟨by decide, by decide, by decide⟩

/-- Claim C2 as amended: `badgeClass` distinguishes exactly the statuses
parsed, ai_extracted, expanded, failed — and additionally a distinct
`rejected` status with its own badge class; every other value (including
`uploaded`, the empty string and a null status) gets the default class. -/
theorem claim2_badge_statuses :
    badgeClass none = "badge" ∧
    badgeClass (some "") = "badge" ∧
    badgeClass (some "uploaded") = "badge" ∧
    badgeClass (some "parsed") = "badge parsed" ∧
    badgeClass (some "ai_extracted") = "badge ai" ∧
    badgeClass (some "expanded") = "badge expanded" ∧
    badgeClass (some "failed") = "badge failed" ∧
    badgeClass (some "rejected") = "badge rejected" ∧
    ∀ st : String,
      st ∉ ["parsed", "ai_extracted", "expanded", "failed", "rejected"] →
      badgeClass (some st) = "badge" := by
  refine ⟨rfl, by decide, by decide, by decide, by decide, by decide, by decide,
    by decide, ?_⟩
  intro st hst
  simp only [List.mem_cons, List.not_mem_nil, or_false, not_or] at hst
  obtain ⟨h1, h2, h3, h4, h5⟩ := hst
  simp [badgeClass, h1, h2, h3, h4, h5]

/-- Witness for the amended C2 at a status outside the distinguished set. -/
theorem claim2_badge_statuses_witness : badgeClass (some "other") = "badge" :=
  claim2_badge_statuses.2.2.2.2.2.2.2.2 "other" (by decide)

theorem sumCounts_bumpKey (m : List (JSValue × Nat)) (k : JSValue) :
    sumCounts (bumpKey m k) = sumCounts m + 1 := by
  induction m with
  | nil => rfl
  | cons p rest ih =>
    obtain ⟨k0, c⟩ := p
    by_cases hk : k0 = k
    · simp only [bumpKey, if_pos hk, sumCounts]
      omega
    · simp only [bumpKey, if_neg hk, sumCounts, ih]
      omega

theorem countKey_bumpKey (m : List (JSValue × Nat)) (k k' : JSValue) :
    countKey (bumpKey m k) k' = countKey m k' + (if k = k' then 1 else 0) := by
  induction m with
  | nil =>
    by_cases h : k = k' <;> simp [bumpKey, countKey, h]
  | cons p rest ih =>
    obtain ⟨k0, c⟩ := p
    by_cases hk : k0 = k
    · subst hk
      simp only [bumpKey, if_pos rfl, countKey]
      by_cases h' : k0 = k' <;> simp [h'] <;> omega
    · simp only [bumpKey, if_neg hk, countKey, ih]
      omega

theorem stageDist_go_sum (ds : List JSObject) (m : List (JSValue × Nat)) :
    sumCounts (List.foldl (fun acc d => bumpKey acc (stageKeyOf d)) m ds) =
      sumCounts m + ds.length := by
  induction ds generalizing m with
  | nil => simp
  | cons d rest ih =>
    simp only [List.foldl_cons, List.length_cons, ih, sumCounts_bumpKey]
    omega

theorem stageDist_go_count (ds : List JSObject) (m : List (JSValue × Nat))
    (k : JSValue) :
    countKey (List.foldl (fun acc d => bumpKey acc (stageKeyOf d)) m ds) k =
      countKey m k + countMatching k ds := by
  induction ds generalizing m with
  | nil => simp [countMatching]
  | cons d rest ih =>
    simp only [List.foldl_cons, countMatching, ih, countKey_bumpKey]
    by_cases h : stageKeyOf d = k <;> simp [h] <;> omega

/-- Claim C3: the stage distribution buckets every deal with a null,
undefined or empty-string stage under an explicit `"Unknown"` key instead of
dropping it, each key's bucket counts exactly the deals grouping under it,
and the bucket counts sum to the total number of deals. -/
theorem claim3_stage_unknown_bucket (deals : List JSObject) :
    sumCounts (stageDist deals) = deals.length ∧
    (∀ k, countKey (stageDist deals) k = countMatching k deals) ∧
    (∀ d : JSObject,
      getField d "stage" = JSValue.vnull ∨ getField d "stage" = JSValue.vundef ∨
        getField d "stage" = JSValue.vstr "" →
      stageKeyOf d = JSValue.vstr "Unknown") := by
  refine ⟨?_, ?_, ?_⟩
  · simpa [sumCounts] using stageDist_go_sum deals []
  · intro k
    simpa [countKey] using stageDist_go_count deals [] k
  · intro d hd
    rcases hd with h | h | h <;> simp [stageKeyOf, h, truthy]

/-- Witness for C3: a deal with a null stage lands in the Unknown bucket. -/
theorem claim3_stage_unknown_bucket_witness :
    stageKeyOf [("stage", JSValue.vnull)] = JSValue.vstr "Unknown" :=
  (claim3_stage_unknown_bucket [[("stage", JSValue.vnull)]]).2.2
    [("stage", JSValue.vnull)] (Or.inl (by decide))

theorem fetchKpisStep_batchId (s : AppState) (id : Option String)
    (env : String → JSObject) : (fetchKpisStep s id env).batchId = s.batchId := by
  cases id with
  | none => rfl
  | some i => by_cases h : i = "" <;> simp [fetchKpisStep, h]

theorem fetchKpisStep_deals (s : AppState) (id : Option String)
    (env : String → JSObject) : (fetchKpisStep s id env).deals = s.deals := by
  cases id with
  | none => rfl
  | some i => by_cases h : i = "" <;> simp [fetchKpisStep, h]

theorem fetchKpisStep_filesResult (s : AppState) (id : Option String)
    (env : String → JSObject) :
    (fetchKpisStep s id env).filesResult = s.filesResult := by
  cases id with
  | none => rfl
  | some i => by_cases h : i = "" <;> simp [fetchKpisStep, h]

theorem fetchKpisStep_uploadTimestamp (s : AppState) (id : Option String)
    (env : String → JSObject) :
    (fetchKpisStep s id env).uploadTimestamp = s.uploadTimestamp := by
  cases id with
  | none => rfl
  | some i => by_cases h : i = "" <;> simp [fetchKpisStep, h]

theorem fetchKpisStep_error (s : AppState) (id : Option String)
    (env : String → JSObject) : (fetchKpisStep s id env).error = s.error := by
  cases id with
  | none => rfl
  | some i => by_cases h : i = "" <;> simp [fetchKpisStep, h]

theorem uploadOnload_success (s : AppState) (status : Nat) (data : UploadData)
    (kenv : String → JSObject) (benv : Option (List JSObject))
    (h1 : 200 ≤ status) (h2 : status < 300) :
    (uploadOnload s status (some data) kenv benv).batchId = data.batch_id ∧
    (uploadOnload s status (some data) kenv benv).uploadTimestamp =
      orNullStr data.upload_timestamp ∧
    (uploadOnload s status (some data) kenv benv).filesResult =
      data.files.getD [] ∧
    (uploadOnload s status (some data) kenv benv).deals =
      data.deals_preview.getD [] := by
  simp only [uploadOnload, if_pos (And.intro h1 h2), fetchBatchesStep]
  refine ⟨?_, ?_, ?_, ?_⟩
  · rw [fetchKpisStep_batchId]
  · rw [fetchKpisStep_uploadTimestamp]
  · rw [fetchKpisStep_filesResult]
  · rw [fetchKpisStep_deals]

theorem uploadOnload_err (s : AppState) (status : Nat) (data : UploadData)
    (kenv : String → JSObject) (benv : Option (List JSObject))
    (hst : ¬ (200 ≤ status ∧ status < 300)) :
    uploadOnload s status (some data) kenv benv =
      { s with uploading := false, progress := 100,
               error := detailOr data.detail (uploadFailMsg status) } := by
  simp only [uploadOnload, if_neg hst]

/-- Claim C4: a parsable 2xx upload response sets the batch state from
exactly the response's `batch_id`, `upload_timestamp`, `files` and
`deals_preview`; a non-2xx or unparsable response sets only the error
message, leaving the batch state in its cleared pre-request form — no
partial batch result is visible on error. -/
theorem claim4_no_partial_batch_on_error (s : AppState) (status : Nat)
    (body : Option UploadData) (kenv : String → JSObject)
    (benv : Option (List JSObject)) :
    (∀ data, body = some data → 200 ≤ status → status < 300 →
      (uploadOnload (clearForUpload s) status body kenv benv).batchId =
        data.batch_id ∧
      (uploadOnload (clearForUpload s) status body kenv benv).uploadTimestamp =
        orNullStr data.upload_timestamp ∧
      (uploadOnload (clearForUpload s) status body kenv benv).filesResult =
        data.files.getD [] ∧
      (uploadOnload (clearForUpload s) status body kenv benv).deals =
        data.deals_preview.getD []) ∧
    ((body = none ∨ ¬ (200 ≤ status ∧ status < 300)) →
      (uploadOnload (clearForUpload s) status body kenv benv).batchId = none ∧
      (uploadOnload (clearForUpload s) status body kenv benv).filesResult = [] ∧
      (uploadOnload (clearForUpload s) status body kenv benv).deals = [] ∧
      (uploadOnload (clearForUpload s) status body kenv benv).uploadTimestamp =
        none ∧
      (uploadOnload (clearForUpload s) status body kenv benv).kpis = none ∧
      (uploadOnload (clearForUpload s) status body kenv benv).error =
        (match body with
         | none => uploadFailMsg status
         | some data => detailOr data.detail (uploadFailMsg status))) := by
  constructor
  · intro data hb h1 h2
    subst hb
    exact uploadOnload_success (clearForUpload s) status data kenv benv h1 h2
  · intro herr
    cases body with
    | none =>
      exact ⟨rfl, rfl, rfl, rfl, rfl, rfl⟩
    | some data =>
      have hst : ¬ (200 ≤ status ∧ status < 300) := by
        rcases herr with h | h
        · exact absurd h (Option.some_ne_none data)
        · exact h
      rw [uploadOnload_err (clearForUpload s) status data kenv benv hst]
      exact ⟨rfl, rfl, rfl, rfl, rfl, rfl⟩

/-- Witness for C4: a 500 response with an unparsable body leaves the batch
state cleared, and a 200 response with a body sets the batch id from it. -/
theorem claim4_no_partial_batch_on_error_witness :
    (uploadOnload (clearForUpload emptyState) 500 none kpisEnvTest none).deals =
      [] ∧
    (uploadOnload (clearForUpload emptyState) 200 (some dataTest) kpisEnvTest
      none).batchId = some "b1" :=
  ⟨((claim4_no_partial_batch_on_error emptyState 500 none kpisEnvTest none).2
      (Or.inl rfl)).2.2.1,
   ((claim4_no_partial_batch_on_error emptyState 200 (some dataTest) kpisEnvTest
      none).1 dataTest rfl (by decide) (by decide)).1⟩

/-- Claim C5: immediately after a successful upload the shown deals are
exactly the response's bounded `deals_preview`, and `refreshAllRecords` then
issues a separate request to the records endpoint for the same batch id and
replaces the deals with the full `records` set of that response. -/
theorem claim5_preview_then_full_refresh (s : AppState) (status : Nat)
    (data : UploadData) (kenv : String → JSObject)
    (benv : Option (List JSObject)) (renv : String → Option (List JSObject))
    (b : String) (p rs : List JSObject)
    (h1 : 200 ≤ status) (h2 : status < 300)
    (hb : data.batch_id = some b) (hbne : b ≠ "")
    (hp : data.deals_preview = some p) (hr : renv b = some rs) :
    (uploadOnload (clearForUpload s) status (some data) kenv benv).deals = p ∧
    (uploadOnload (clearForUpload s) status (some data) kenv benv).batchId =
      some b ∧
    (refreshAllRecords (uploadOnload (clearForUpload s) status (some data) kenv
      benv) renv kenv).1 = some (recordsUrl b) ∧
    (refreshAllRecords (uploadOnload (clearForUpload s) status (some data) kenv
      benv) renv kenv).2.deals = rs := by
  have hsucc :=
    uploadOnload_success (clearForUpload s) status data kenv benv h1 h2
  have hdeals :
      (uploadOnload (clearForUpload s) status (some data) kenv benv).deals = p := by
    rw [hsucc.2.2.2, hp]
    rfl
  have hbid :
      (uploadOnload (clearForUpload s) status (some data) kenv benv).batchId =
        some b := by
    rw [hsucc.1, hb]
  refine ⟨hdeals, hbid, ?_, ?_⟩
  · simp only [refreshAllRecords, hbid, if_neg hbne]
  · simp only [refreshAllRecords, hbid, if_neg hbne, fetchKpisStep_deals, hr]
    rfl

/-- Witness for C5 at a concrete successful upload and records response. -/
theorem claim5_preview_then_full_refresh_witness :
    (refreshAllRecords (uploadOnload (clearForUpload emptyState) 200
      (some dataTest) kpisEnvTest none) recordsEnvTest kpisEnvTest).2.deals =
      [[("stage", JSValue.vstr "Won")], [("stage", JSValue.vnull)]] :=
  (claim5_preview_then_full_refresh emptyState 200 dataTest kpisEnvTest none
    recordsEnvTest "b1" [[("stage", JSValue.vstr "Open")]]
    [[("stage", JSValue.vstr "Won")], [("stage", JSValue.vnull)]]
    (by decide) (by decide) rfl (by decide) rfl rfl).2.2.2

/-- Claim C6: the consolidated-deals table and the export consumer use
exactly the unified column order deal_id, client_name, deal_value, stage,
closing_probability, owner, expected_close_date, source_file; every rendered
row presents these eight fields in this order and carries no
processing-status column. -/
theorem claim6_unified_column_order (h : JSHost) (r : JSObject) :
    SCHEMA_COLUMNS = ["deal_id", "client_name", "deal_value", "stage",
      "closing_probability", "owner", "expected_close_date", "source_file"] ∧
    exportColumns = SCHEMA_COLUMNS ∧
    SCHEMA_COLUMNS.contains "processing_status" = false ∧
    renderRow h r = [renderCell h r "deal_id", renderCell h r "client_name",
      renderCell h r "deal_value", renderCell h r "stage",
      renderCell h r "closing_probability", renderCell h r "owner",
      renderCell h r "expected_close_date", renderCell h r "source_file"] ∧
    (renderRow h r).length = 8 :=
  ⟨rfl, rfl, by decide, rfl, rfl⟩

/-- Claim C10: `formatMoney` is total — null, undefined and the empty string
yield `""`; any other value whose `Number` conversion is NaN is returned in
its `String` form; any other value converting to a number is rendered by the
locale formatter capped at two fraction digits. -/
theorem claim10_formatMoney_total (h : JSHost) (x : JSValue) :
    (x = JSValue.vnull ∨ x = JSValue.vundef ∨ x = JSValue.vstr "" →
      formatMoney h x = "") ∧
    (¬ (x = JSValue.vnull ∨ x = JSValue.vundef ∨ x = JSValue.vstr "") →
      toNumber h x = none → formatMoney h x = jsToString h x) ∧
    (¬ (x = JSValue.vnull ∨ x = JSValue.vundef ∨ x = JSValue.vstr "") →
      ∀ q, toNumber h x = some q → formatMoney h x = h.localeMaxTwoFrac q) := by
  refine ⟨?_, ?_, ?_⟩
  · intro hx
    simp only [formatMoney, if_pos hx]
  · intro hx hn
    simp only [formatMoney, if_neg hx, hn]
  · intro hx q hq
    simp only [formatMoney, if_neg hx, hq]

/-- Witness for C10: the null and NaN-string branches at a concrete host. -/
theorem claim10_formatMoney_total_witness :
    formatMoney hostTest JSValue.vnull = "" ∧
    formatMoney hostTest (JSValue.vstr "abc") = "abc" :=
  ⟨(claim10_formatMoney_total hostTest JSValue.vnull).1 (Or.inl rfl),
   (claim10_formatMoney_total hostTest (JSValue.vstr "abc")).2.1 (by decide) rfl⟩
